import Mathlib

/-!
Verification development for the NewsHub news-aggregator repository
(FastAPI + SQLAlchemy).  The definitions below are shallow embeddings of
the functions in src/app: the keyword categorizer and feed parser of
app/rss_parser.py and app/parser/rss_parser.py, the ingestion loop
parse_and_save_articles of both variants, and the CRUD layer of
app/crud.py (get_user_preferences, get_user_read_history,
get_personalized_feed, create_read_history, create_article).  Stateful
database code is modelled by explicit state passing over lists of rows;
fallible persistence returns Except.  Each definition carries a comment
pointing at the source lines it translates.
-/

namespace NewsHub

/-- The eight article categories of app/models.py (class ArticleCategory),
in their declaration order, which is also the iteration order of every
Python dict keyed by them. -/
inductive ArticleCategory where
  | POLITICS
  | TECHNOLOGY
  | SPORTS
  | BUSINESS
  | ENTERTAINMENT
  | SCIENCE
  | HEALTH
  | GENERAL
deriving DecidableEq

/-- The canonical enumeration order of ArticleCategory, as declared in
app/models.py lines 11 to 19.  Python dictionaries built by iterating the
enum (the scores dict of the categorizer) preserve exactly this order. -/
def categoriesInOrder : List ArticleCategory :=
  [ .POLITICS, .TECHNOLOGY, .SPORTS, .BUSINESS, .ENTERTAINMENT,
    .SCIENCE, .HEALTH, .GENERAL ]

/-- Model of Python str.lower for one character, covering the alphabets
that occur in the repository: ASCII letters and the Russian Cyrillic
block (U+0410 to U+042F map to U+0430 to U+044F, and U+0401 maps to
U+0451).  All keyword lists of the categorizer and all inputs used in the
theorems below lie in these ranges. -/
def pyLowerChar (c : Char) : Char :=
  if 65 ≤ c.toNat ∧ c.toNat ≤ 90 then Char.ofNat (c.toNat + 32)
  else if 0x410 ≤ c.toNat ∧ c.toNat ≤ 0x42F then Char.ofNat (c.toNat + 32)
  else if c.toNat = 0x401 then Char.ofNat 0x451
  else c

/-- Model of Python str.lower, applied pointwise to the code points. -/
def pyLower (s : String) : String := ⟨s.data.map pyLowerChar⟩

/-- Whether the first list is an initial segment of the second. -/
def leadMatch : List Char → List Char → Bool
  | [], _ => true
  | _ :: _, [] => false
  | a :: as, b :: bs => a == b && leadMatch as bs

/-- Model of the Python substring test (keyword in text): the needle
occurs contiguously somewhere in the haystack. -/
def occursIn (needle : List Char) : List Char → Bool
  | [] => leadMatch needle []
  | c :: rest => leadMatch needle (c :: rest) || occursIn needle rest

/-- The static keyword table of _categorize_article
(app/rss_parser.py lines 25 to 34; the copy in app/parser/rss_parser.py
lines 28 to 37 is identical).  GENERAL has no keyword list and always
scores zero. -/
def categoryKeywords : ArticleCategory → List String
  | .POLITICS => ["выборы", "президент", "правительство", "политика", "путин", "депутат"]
  | .TECHNOLOGY => ["технология", "искусственный интеллект", "стартап", "гаджет",
                    "программирование", "it", "смартфон"]
  | .SPORTS => ["футбол", "хоккей", "соревнование", "олимпиада", "спортсмен", "чемпионат"]
  | .BUSINESS => ["бизнес", "экономика", "рынок", "акции", "компания", "финансы"]
  | .ENTERTAINMENT => ["кино", "сериал", "музыка", "знаменитость", "концерт"]
  | .SCIENCE => ["наука", "исследование", "открытие", "ученый", "космос"]
  | .HEALTH => ["здоровье", "медицина", "врач", "лекарство", "болезнь"]
  | .GENERAL => []

/-- Score of one category against the lowercased text: the number of its
keywords that occur in the text (each keyword counts at most once, which
is what the source does: if keyword in text then score += 1). -/
def scoreFor (text : String) (c : ArticleCategory) : Nat :=
  (categoryKeywords c).countP (fun kw => occursIn kw.data text.data)

/-- Python max over a nonempty list of numbers (max of scores.values());
the empty case is unreachable in the translation and yields 0. -/
def pyListMax : List Nat → Nat
  | [] => 0
  | x :: xs => xs.foldl Nat.max x

/-- Python max(iterable, key=f): scans left to right keeping the current
best and replacing it only on a strictly greater key, so the first
element attaining the maximum wins.  Returns none on an empty list
(Python would raise; unreachable here). -/
def pyMaxBy (f : α → Nat) : List α → Option α
  | [] => none
  | x :: xs => some (xs.foldl (fun best y => if f best < f y then y else best) x)

/-- Translation of RSSParser._categorize_article
(app/rss_parser.py lines 23 to 44): lowercase title concat summary,
score every category by keyword hits, return the max-key category when
some score is positive and GENERAL otherwise. -/
def categorizeArticle (title : String) (summary : String) : ArticleCategory :=
  let text := pyLower (title ++ " " ++ summary)
  if 0 < pyListMax (categoriesInOrder.map (scoreFor text)) then
    (pyMaxBy (scoreFor text) categoriesInOrder).getD .GENERAL
  else
    .GENERAL

/-- Classifier written from the words of the spec (section 4.1): the
category with the strictly highest score wins, ties break to the first
category reaching the maximum score in canonical enumeration order, and
if every category scores zero the result is GENERAL.  Compared with
categorizeArticle in claim C8. -/
def specClassify (title : String) (summary : String) : ArticleCategory :=
  let text := pyLower (title ++ " " ++ summary)
  let best := (categoriesInOrder.map (scoreFor text)).foldl Nat.max 0
  if best = 0 then
    .GENERAL
  else
    (categoriesInOrder.find? (fun c => scoreFor text c == best)).getD .GENERAL

/-- A stored article row (app/models.py class Article).  The surrogate
primary key id is assigned by the database; the ingestion model below
assigns 0 since no modelled code path reads the id of a freshly inserted
article, while the ranking model quantifies over arbitrary stores. -/
structure Article where
  id : Nat
  title : String
  summary : Option String
  content : String
  source_url : String
  image_url : Option String
  category : ArticleCategory
  published_at : Option Int
  source_id : Option Nat
deriving DecidableEq

/-- A user preference row (app/models.py class UserPreference): one row
per user and category with a weight.  There is no source_id column on
this model, which matters for get_personalized_feed below. -/
structure UserPreference where
  user_id : Nat
  category : ArticleCategory
  weight : Rat
deriving DecidableEq

/-- A read-history row (app/models.py class ReadHistory), with a unique
index on the pair of user_id and article_id. -/
structure ReadHistory where
  user_id : Nat
  article_id : Nat
  read_at : Int
  read_time_seconds : Option Nat
deriving DecidableEq

/-- One media attachment of a feed entry, as seen by parse_feed. -/
structure MediaItem where
  type : String
  url : String
deriving DecidableEq

/-- A raw feed entry as exposed by feedparser; every field the source
guards with hasattr or a truthiness test is an Option. -/
structure Entry where
  title : Option String
  summary : Option String
  description : Option String
  link : Option String
  published_parsed : Option Int
  media_content : Option (List MediaItem)
deriving DecidableEq

/-- The article_data dict built for each entry inside parse_feed. -/
structure ArticleData where
  title : String
  summary : String
  content : String
  source_url : String
  image_url : Option String
  published_at : Option Int
  category : ArticleCategory
deriving DecidableEq

/-- First image url among the media attachments (app/rss_parser.py lines
72 to 76): the url of the first media item whose type starts with the
word image, none when the entry has no media_content. -/
def firstImageUrl : Option (List MediaItem) → Option String
  | none => none
  | some items =>
      (items.find? (fun it => leadMatch "image".data it.type.data)).map (fun it => it.url)

/-- The per-entry dict construction of parse_feed (app/rss_parser.py
lines 55 to 78, identical in app/parser/rss_parser.py lines 62 to 85):
missing title, summary, description and link default to the empty
string, so an entry without a link is kept with source_url empty. -/
def entryToData (e : Entry) : ArticleData :=
  { title := e.title.getD ""
  , summary := e.summary.getD ""
  , content := e.description.getD ""
  , source_url := e.link.getD ""
  , image_url := firstImageUrl e.media_content
  , published_at := e.published_parsed
  , category := categorizeArticle (e.title.getD "") (e.summary.getD "") }

/-- RSSParser.parse_feed of app/rss_parser.py lines 46 to 82.  The whole
body runs under a try block: any network failure, timeout or parsing
exception is caught and the function returns the empty list.  The fetch
outcome is passed in as an Except value; on success only the first ten
entries are converted. -/
def parse_feed (fetched : Except Unit (List Entry)) : List ArticleData :=
  match fetched with
  | .error _ => []
  | .ok entries => (entries.take 10).map entryToData

/-- RSSParser.parse_feed of app/parser/rss_parser.py lines 51 to 91: the
same function except that it converts only the first five entries. -/
def parse_feed_v2 (fetched : Except Unit (List Entry)) : List ArticleData :=
  match fetched with
  | .error _ => []
  | .ok entries => (entries.take 5).map entryToData

/-- Python string slicing s[:n] on code points. -/
def pySlice (s : String) (n : Nat) : String := ⟨s.data.take n⟩

/-- The payload of schemas.ArticleCreate (app/schemas.py lines 68 to
77).  summary is a required str field there: ArticleCreate does not
inherit ArticleBase (whose summary is Optional), so the value None is
rejected by validation — see toArticleCreate below. -/
structure ArticleCreate where
  title : String
  summary : String
  content : String
  source_url : String
  image_url : Option String
  category : ArticleCategory
  source_id : Nat
  published_at : Option Int
deriving DecidableEq

/-- The field values the batched-variant loop passes to ArticleCreate
(app/rss_parser.py lines 105 to 114): title cut to 500, summary to
1000, content to 5000, both source_url and image_url to 500, image_url
None when falsy. -/
def articleCreatePayload (source_id : Nat) (ad : ArticleData) : ArticleCreate :=
  { title := pySlice ad.title 500
  , summary := pySlice ad.summary 1000
  , content := if ad.content == "" then "" else pySlice ad.content 5000
  , source_url := pySlice ad.source_url 500
  , image_url := match ad.image_url with
      | none => none
      | some u => if u == "" then none else some (pySlice u 500)
  , category := ad.category
  , source_id := source_id
  , published_at := ad.published_at }

/-- Construction of ArticleCreate by the batched-variant loop.  Line 107
passes summary None whenever the parsed summary is empty (Python
falsiness); pydantic rejects None for the required str field summary of
schemas.ArticleCreate with a ValidationError, raised inside the
per-item try block, so such a candidate is skipped.  With a nonempty
summary, validation succeeds and yields the payload above. -/
def toArticleCreate (source_id : Nat) (ad : ArticleData) : Except Unit ArticleCreate :=
  if ad.summary == "" then .error ()
  else .ok (articleCreatePayload source_id ad)

/-- The field values the per-item-variant loop passes to ArticleCreate
(app/parser/rss_parser.py lines 112 to 121): title and summary are
truncated as above but content, source_url and image_url are passed
untruncated. -/
def articleCreatePayloadV2 (source_id : Nat) (ad : ArticleData) : ArticleCreate :=
  { title := pySlice ad.title 500
  , summary := pySlice ad.summary 1000
  , content := ad.content
  , source_url := ad.source_url
  , image_url := ad.image_url
  , category := ad.category
  , source_id := source_id
  , published_at := ad.published_at }

/-- Construction of ArticleCreate by the per-item-variant loop: line 114
has the same falsiness test, so an empty parsed summary again becomes
None and fails validation of the required str field; the item is
skipped by the per-item handler. -/
def toArticleCreateV2 (source_id : Nat) (ad : ArticleData) : Except Unit ArticleCreate :=
  if ad.summary == "" then .error ()
  else .ok (articleCreatePayloadV2 source_id ad)

/-- The row that crud.create_article inserts for a given (validated)
payload; the summary column of the articles table is nullable, so the
str value is stored as a present value. -/
def insertedArticle (ac : ArticleCreate) : Article :=
  { id := 0
  , title := ac.title
  , summary := some ac.summary
  , content := ac.content
  , source_url := ac.source_url
  , image_url := ac.image_url
  , category := ac.category
  , published_at := ac.published_at
  , source_id := some ac.source_id }

/-- crud.create_article (app/crud.py lines 66 to 96): inserts the row
and commits.  The articles table has a unique constraint on source_url
(app/models.py line 51); a violation raises, create_article rolls back
and re-raises, modelled as the error branch. -/
def create_article (store : List Article) (ac : ArticleCreate) : Except Unit (List Article) :=
  if store.any (fun a => a.source_url == ac.source_url) then
    .error ()
  else
    .ok (store ++ [insertedArticle ac])

/-- The per-item loop of parse_and_save_articles in app/rss_parser.py
lines 100 to 122.  The membership test against existing_urls is a pure
function of the store as it was before the loop (the batched existence
query of lines 91 to 98), passed here as the predicate existing.  The
per-item try block covers both the ArticleCreate validation and the
insert: a ValidationError (empty summary) or a failing insert is caught
and the loop continues with the next item, counting nothing. -/
def saveLoop (existing : String → Bool) (source_id : Nat) :
    List ArticleData → Nat → List Article → Nat × List Article
  | [], count, st => (count, st)
  | ad :: rest, count, st =>
    if existing ad.source_url then
      saveLoop existing source_id rest count st
    else
      match toArticleCreate source_id ad with
      | .error _ => saveLoop existing source_id rest count st
      | .ok ac =>
        match create_article st ac with
        | .ok st2 => saveLoop existing source_id rest (count + 1) st2
        | .error _ => saveLoop existing source_id rest count st

/-- RSSParser.parse_and_save_articles of app/rss_parser.py lines 84 to
122: an empty candidate list returns 0 immediately; otherwise one
batched existence query computes the set of already stored urls among
the batch (membership in it is equivalent to membership in the stored
urls, since every tested url comes from the batch) and the loop runs.
The int returned is the number of rows actually inserted. -/
def parse_and_save_articles (store : List Article) (source_id : Nat)
    (articles_data : List ArticleData) : Nat × List Article :=
  if articles_data.isEmpty then (0, store)
  else
    saveLoop (fun u => store.any (fun a => a.source_url == u)) source_id
      articles_data 0 store

/-- The per-item loop of parse_and_save_articles in
app/parser/rss_parser.py lines 102 to 128: here the existence check is a
fresh SELECT against the current articles table on every iteration, and
the ArticleCreate validation and the insert run under the same per-item
try block, so a ValidationError or a failing insert skips the item. -/
def saveLoopV2 (source_id : Nat) :
    List ArticleData → Nat → List Article → Nat × List Article
  | [], count, st => (count, st)
  | ad :: rest, count, st =>
    if st.any (fun a => a.source_url == ad.source_url) then
      saveLoopV2 source_id rest count st
    else
      match toArticleCreateV2 source_id ad with
      | .error _ => saveLoopV2 source_id rest count st
      | .ok ac =>
        match create_article st ac with
        | .ok st2 => saveLoopV2 source_id rest (count + 1) st2
        | .error _ => saveLoopV2 source_id rest count st

/-- RSSParser.parse_and_save_articles of app/parser/rss_parser.py lines
93 to 130; no early return on an empty batch, the loop just runs zero
times. -/
def parse_and_save_articles_v2 (store : List Article) (source_id : Nat)
    (articles_data : List ArticleData) : Nat × List Article :=
  saveLoopV2 source_id articles_data 0 store

/-- The dict built per row by crud.get_user_read_history (app/crud.py
lines 302 to 312).  The function returns plain dicts, not ORM objects:
attribute access on them raises AttributeError, which matters for
get_personalized_feed. -/
structure HistoryItem where
  user_id : Nat
  article_id : Nat
  read_at : Int
  read_time_seconds : Option Nat
  article_title : String
  article_category : ArticleCategory
deriving DecidableEq

/-- The persistent store shared by the modelled CRUD functions. -/
structure DB where
  articles : List Article
  prefs : List UserPreference
  history : List ReadHistory
deriving DecidableEq

/-- SQL comparison under ORDER BY with possible NULLs, SQLite style:
NULL sorts below every value. -/
def nullLeB : Option Int → Option Int → Bool
  | none, _ => true
  | some _, none => false
  | some a, some b => a ≤ b

/-- ORDER BY published_at DESC: a comes before b when b is at most a. -/
def pubDesc (a b : Article) : Prop := nullLeB b.published_at a.published_at = true

instance : DecidableRel pubDesc := fun a b =>
  inferInstanceAs (Decidable (nullLeB b.published_at a.published_at = true))

/-- ORDER BY weight DESC on preference rows. -/
def weightDesc (p q : UserPreference) : Prop := q.weight ≤ p.weight

instance : DecidableRel weightDesc := fun p q =>
  inferInstanceAs (Decidable (q.weight ≤ p.weight))

/-- ORDER BY read_at DESC on joined history items. -/
def readAtDesc (x y : HistoryItem) : Prop := y.read_at ≤ x.read_at

instance : DecidableRel readAtDesc := fun x y =>
  inferInstanceAs (Decidable (y.read_at ≤ x.read_at))

/-- SQL IN on a list of ids. -/
def inIds (ids : List Nat) (i : Nat) : Bool := ids.any (fun j => j == i)

/-- crud.get_user_preferences (app/crud.py lines 221 to 227): all
preference rows of the user ordered by weight descending.  A stable sort
models the SQL ORDER BY; nothing below depends on the order of ties. -/
def get_user_preferences (db : DB) (uid : Nat) : List UserPreference :=
  (db.prefs.filter (fun p => p.user_id == uid)).insertionSort weightDesc

/-- crud.get_user_read_history (app/crud.py lines 281 to 314): the
history rows of the user inner-joined with the articles table on
article_id, ordered by read_at descending, returned as plain dicts.  A
history row whose article id matches no stored article produces no
item. -/
def get_user_read_history (db : DB) (uid : Nat) : List HistoryItem :=
  ((db.history.filter (fun h => h.user_id == uid)).flatMap (fun h =>
      (db.articles.filter (fun a => a.id == h.article_id)).map (fun a =>
        { user_id := h.user_id
        , article_id := h.article_id
        , read_at := h.read_at
        , read_time_seconds := h.read_time_seconds
        , article_title := a.title
        , article_category := a.category }))).insertionSort readAtDesc

/-- crud.get_personalized_feed (app/crud.py lines 317 to 402).  The
whole body runs under a try block whose handler returns the empty list.
Two statements in that body raise AttributeError on any nontrivial
input, and the translation reflects the resulting control flow exactly:

First, line 330 reads h.article_id on every element of the result of
get_user_read_history, but those elements are plain dicts (built on
lines 302 to 312), and attribute access on a dict raises.  So whenever
the joined history is nonempty the handler returns []; when it is empty
the comprehension is skipped and read_article_ids is bound to [].

Second, when the preference list is nonempty, the loop on lines 338 to
342 reads pref.source_id on its first iteration, but the UserPreference
model (app/models.py lines 65 to 78) has no source_id column, so this
access raises as well and the handler returns [].

Only a user with no preference rows and no readable history reaches the
query: all articles ordered by published_at descending, limited to
limit (the read-id exclusion degenerates to WHERE true since
read_article_ids is []).  When fewer than limit / 2 rows come back, a
second query fetches up to limit minus that many more articles whose id
is not among the ids already selected (nor among read_article_ids,
still []), again ordered by recency. -/
def get_personalized_feed (db : DB) (uid : Nat) (limit : Nat) : List Article :=
  let preferences := get_user_preferences db uid
  let history := get_user_read_history db uid
  if !history.isEmpty then
    []
  else
    let read_article_ids : List Nat := []
    if !preferences.isEmpty then
      []
    else
      let articles := (db.articles.insertionSort pubDesc).take limit
      if articles.length < limit / 2 then
        let remaining := limit - articles.length
        let general :=
          ((db.articles.filter (fun a =>
              !inIds (articles.map (fun b => b.id) ++ read_article_ids) a.id)).insertionSort
            pubDesc).take remaining
        articles ++ general
      else
        articles

/-- crud.create_read_history (app/crud.py lines 255 to 278): when a row
for this user and article already exists return None and insert nothing,
otherwise insert one row (read_at filled by the database clock, passed
here as now) and return it. -/
def create_read_history (rows : List ReadHistory) (uid : Nat) (article_id : Nat)
    (read_time_seconds : Option Nat) (now : Int) :
    Option ReadHistory × List ReadHistory :=
  if rows.any (fun r => r.user_id == uid && r.article_id == article_id) then
    (none, rows)
  else
    let row : ReadHistory :=
      { user_id := uid, article_id := article_id, read_at := now
      , read_time_seconds := read_time_seconds }
    (some row, rows ++ [row])

/-- The mark_as_read endpoint (app/main.py lines 236 to 253): calls
create_read_history and maps the None result to the message that the
article is already recorded. -/
def mark_as_read (rows : List ReadHistory) (uid : Nat) (article_id : Nat)
    (read_time : Option Nat) (now : Int) : String × List ReadHistory :=
  match create_read_history rows uid article_id read_time now with
  | (none, rows2) => ("Статья уже отмечена как прочитанная", rows2)
  | (some _, rows2) => ("Статья отмечена как прочитанная", rows2)

/-- A feed entry with no link field but a normal nonempty summary (so
it passes the ArticleCreate validation), used for claim C10. -/
def linklessEntry : Entry :=
  { title := some "запись"
  , summary := some "анонс"
  , description := none
  , link := none
  , published_parsed := none
  , media_content := none }

/-- A concrete stored article for the example databases. -/
def mkArticle (i : Nat) (c : ArticleCategory) (p : Int) : Article :=
  { id := i
  , title := "t"
  , summary := none
  , content := ""
  , source_url := "u" ++ toString i
  , image_url := none
  , category := c
  , published_at := some p
  , source_id := none }

/-- Store for the scenario of claim C1: user 1 has preference weights
0.8 on TECHNOLOGY and 0.1 on SPORTS, ten unread TECHNOLOGY articles
(ids 1 to 10) and ten unread SPORTS articles (ids 11 to 20), empty read
history. -/
def exDB1 : DB :=
  { articles :=
      (List.range 10).map (fun i => mkArticle (i + 1) .TECHNOLOGY (Int.ofNat i + 1))
        ++ (List.range 10).map (fun i => mkArticle (i + 11) .SPORTS (Int.ofNat i + 11))
  , prefs := [ { user_id := 1, category := .TECHNOLOGY, weight := Rat.mk' 4 5 }
             , { user_id := 1, category := .SPORTS, weight := Rat.mk' 1 10 } ]
  , history := [] }

/-- Store for the scenario of claim C2: user 1 has one preference row,
the preferred pool holds 3 articles, and 23 unread articles exist in
total; empty read history. -/
def exDB2 : DB :=
  { articles :=
      (List.range 3).map (fun i => mkArticle (i + 1) .TECHNOLOGY (Int.ofNat i + 1))
        ++ (List.range 20).map (fun i => mkArticle (i + 4) .GENERAL (Int.ofNat i + 4))
  , prefs := [ { user_id := 1, category := .TECHNOLOGY, weight := Rat.mk' 4 5 } ]
  , history := [] }

/-- Store with three articles and no preference or history rows, for the
witness of claim C2. -/
def exDB3 : DB :=
  { articles := (List.range 3).map (fun i => mkArticle (i + 1) .GENERAL (Int.ofNat i + 1))
  , prefs := []
  , history := [] }

/-- The article user 1 has read in exDB4. -/
def exReadArticle : Article := mkArticle 1 .GENERAL 1

/-- Store for the witness of claim C3: two articles, and user 1 has read
the one with id 1. -/
def exDB4 : DB :=
  { articles := [exReadArticle, mkArticle 2 .GENERAL 2]
  , prefs := []
  , history := [ { user_id := 1, article_id := 1, read_at := 0, read_time_seconds := none } ] }

/-- A concrete candidate item with a given source url and an empty
summary, as parse_feed produces for a feed entry without a summary
field; such an item fails the ArticleCreate validation. -/
def mkItem (u : String) : ArticleData :=
  { title := "t"
  , summary := ""
  , content := ""
  , source_url := u
  , image_url := none
  , published_at := none
  , category := .GENERAL }

/-- A concrete candidate item with a given source url and summary. -/
def mkItemS (u s : String) : ArticleData :=
  { title := "t"
  , summary := s
  , content := ""
  , source_url := u
  , image_url := none
  , published_at := none
  , category := .GENERAL }

/-- A fetch batch exercising both per-item failure modes of the
ingestion loop: the same new url appears twice (the second copy fails
the uniqueness constraint at insert time), then an item with an empty
summary (which fails the ArticleCreate validation), then a further new
url that must still be persisted. -/
def exBatchDup : List ArticleData :=
  [mkItemS "http://a" "s", mkItemS "http://a" "s", mkItem "http://e", mkItemS "http://b" "s"]

/-- A store already holding the articles with urls u1 and u2, for the
dedup scenario of claim C4. -/
def exStore4 : List Article := [mkArticle 1 .GENERAL 1, mkArticle 2 .GENERAL 2]

/-- A five-candidate batch of valid (nonempty-summary) items of which
the first two urls are already in exStore4. -/
def exBatch5 : List ArticleData :=
  [mkItemS "u1" "s", mkItemS "u2" "s", mkItemS "u3" "s", mkItemS "u4" "s", mkItemS "u5" "s"]

/-- A store holding one article with url u1, for the counterexample of
claim C4. -/
def exStoreC4 : List Article := [mkArticle 1 .GENERAL 1]

/-- A batch with one url already in exStoreC4 and one new url, both
items carrying empty summaries, as parse_feed yields for feed entries
without summaries: the claim scenario's one-stored-one-new batch. -/
def exBatchC4 : List ArticleData := [mkItem "u1", mkItem "u2"]

/-! Theorems.  One theorem per claim of the specification audit, with
counterexamples and witnesses where required. -/

/-- C7 (confirmed): when the network retrieval fails, times out, or the
document cannot be parsed, parse_feed catches the exception and returns
the empty list, and parse_and_save_articles on that empty candidate list
returns 0 saved articles with the store untouched, in both variants of
the parser. -/
theorem claim_C7_fetch_fails_soft :
    parse_feed (.error ()) = []
    ∧ parse_feed_v2 (.error ()) = []
    ∧ (∀ (store : List Article) (sid : Nat),
        parse_and_save_articles store sid (parse_feed (.error ())) = (0, store))
    ∧ (∀ (store : List Article) (sid : Nat),
        parse_and_save_articles_v2 store sid (parse_feed_v2 (.error ())) = (0, store)) :=
  ⟨rfl, rfl, fun _ _ => rfl, fun _ _ => rfl⟩

/-- C10 (corrected), counterexample: parse_feed does not drop an entry
without a link.  On a one-entry feed whose entry has no link, the parsed
batch contains the item, its source_url is the empty string, and saving
the batch into an empty store persists an article whose source URL is
empty — contradicting the claim that such items never reach
deduplication or persistence. -/
theorem claim_C10_counterexample :
    parse_feed (.ok [linklessEntry]) = [entryToData linklessEntry]
    ∧ (entryToData linklessEntry).source_url = ""
    ∧ (parse_and_save_articles [] 1 (parse_feed (.ok [linklessEntry]))).2.map
        (fun a => a.source_url) = [""] := by
  refine ⟨rfl, rfl, ?_⟩
  decide

/-- C10 (corrected), amended claim: an entry without a link is kept, not
dropped — among the first ten entries (first five for the parser/
variant) every entry appears in the output, and an entry without a link
yields source_url equal to the empty string, which is then passed to
deduplication and persistence like any other candidate. -/
theorem claim_C10_linkless_kept (entries : List Entry) (e : Entry)
    (hl : e.link = none) :
    (e ∈ entries.take 10 →
      entryToData e ∈ parse_feed (.ok entries) ∧ (entryToData e).source_url = "")
    ∧ (e ∈ entries.take 5 →
      entryToData e ∈ parse_feed_v2 (.ok entries) ∧ (entryToData e).source_url = "") := by
  have hurl : (entryToData e).source_url = "" := by
    simp [entryToData, hl]
  constructor
  · intro hmem
    exact ⟨List.mem_map_of_mem entryToData hmem, hurl⟩
  · intro hmem
    exact ⟨List.mem_map_of_mem entryToData hmem, hurl⟩

/-- C10 witness: the amended claim applied to the concrete one-entry
feed. -/
theorem claim_C10_witness :
    linklessEntry.link = none
    ∧ entryToData linklessEntry ∈ parse_feed (.ok [linklessEntry])
    ∧ (entryToData linklessEntry).source_url = "" := by
  have h := (claim_C10_linkless_kept [linklessEntry] linklessEntry rfl).1 (by decide)
  exact ⟨rfl, h.1, h.2⟩

/-- C9 (confirmed): marking the same article read twice is a no-op.
Starting from a store with no row for the pair, the first call inserts
exactly one row; the second call returns None (surfaced by the endpoint
as the already-recorded message), leaves the store unchanged, and the
store still holds exactly one row for the pair. -/
theorem claim_C9_mark_read_twice (rows : List ReadHistory) (uid aid : Nat)
    (rt1 rt2 : Option Nat) (t1 t2 : Int)
    (hfresh : rows.filter (fun r => r.user_id == uid && r.article_id == aid) = []) :
    (create_read_history (create_read_history rows uid aid rt1 t1).2 uid aid rt2 t2).1 = none
    ∧ (create_read_history (create_read_history rows uid aid rt1 t1).2 uid aid rt2 t2).2
        = (create_read_history rows uid aid rt1 t1).2
    ∧ ((create_read_history rows uid aid rt1 t1).2.filter
        (fun r => r.user_id == uid && r.article_id == aid)).length = 1
    ∧ (mark_as_read (create_read_history rows uid aid rt1 t1).2 uid aid rt2 t2).1
        = "Статья уже отмечена как прочитанная"
    ∧ (mark_as_read (create_read_history rows uid aid rt1 t1).2 uid aid rt2 t2).2
        = (create_read_history rows uid aid rt1 t1).2 := by
  have hall := List.filter_eq_nil_iff.mp hfresh
  have hany : rows.any (fun r => r.user_id == uid && r.article_id == aid) = false := by
    cases hc : rows.any (fun r => r.user_id == uid && r.article_id == aid) with
    | false => rfl
    | true =>
      obtain ⟨r, hr, hp⟩ := List.any_eq_true.mp hc
      exact absurd hp (hall r hr)
  have hfirst : create_read_history rows uid aid rt1 t1
      = (some ⟨uid, aid, t1, rt1⟩, rows ++ [⟨uid, aid, t1, rt1⟩]) := by
    simp [create_read_history, hany]
  have hsec : create_read_history (rows ++ [(⟨uid, aid, t1, rt1⟩ : ReadHistory)]) uid aid rt2 t2
      = (none, rows ++ [⟨uid, aid, t1, rt1⟩]) := by
    simp [create_read_history]
  rw [hfirst]
  refine ⟨by rw [hsec], by rw [hsec], ?_, ?_, ?_⟩
  · rw [List.filter_append, hfresh]
    simp
  · simp [mark_as_read, hsec]
  · simp [mark_as_read, hsec]

/-- C9 witness: the idempotence theorem applied to the empty store. -/
theorem claim_C9_witness :
    (([] : List ReadHistory).filter (fun r => r.user_id == 1 && r.article_id == 2) = [])
    ∧ (create_read_history (create_read_history [] 1 2 none 0).2 1 2 none 5).1 = none
    ∧ ((create_read_history [] 1 2 none 0).2.filter
        (fun r => r.user_id == 1 && r.article_id == 2)).length = 1 :=
  ⟨rfl, (claim_C9_mark_read_twice [] 1 2 none none 0 5 rfl).1,
    (claim_C9_mark_read_twice [] 1 2 none none 0 5 rfl).2.2.1⟩

/-- Nat.max with a zero left argument. -/
lemma nat_zero_max (a : Nat) : Nat.max 0 a = a := Nat.max_eq_right (Nat.zero_le a)

/-- Nat.max when the left argument dominates. -/
lemma nat_max_left {a b : Nat} (h : b ≤ a) : Nat.max a b = a := Nat.max_eq_left h

/-- Nat.max when the right argument dominates. -/
lemma nat_max_right {a b : Nat} (h : a ≤ b) : Nat.max a b = b := Nat.max_eq_right h

/-- The seed of a left fold with Nat.max never exceeds the result. -/
lemma le_foldl_max (l : List Nat) (b : Nat) : b ≤ l.foldl Nat.max b := by
  induction l generalizing b with
  | nil => exact Nat.le_refl b
  | cons c t ih => exact Nat.le_trans (Nat.le_max_left b c) (ih (Nat.max b c))

/-- Python max over a nonempty list agrees with a zero-seeded fold. -/
lemma pyListMax_eq_foldl_zero (x : Nat) (xs : List Nat) :
    pyListMax (x :: xs) = (x :: xs).foldl Nat.max 0 := by
  show xs.foldl Nat.max x = xs.foldl Nat.max (Nat.max 0 x)
  rw [nat_zero_max]

/-- find? on a cons whose head satisfies the predicate. -/
lemma find?_head (p : α → Bool) (a : α) (l : List α) (h : p a = true) :
    (a :: l).find? p = some a := by
  simp [List.find?_cons, h]

/-- find? on a cons whose head fails the predicate. -/
lemma find?_tail (p : α → Bool) (a : α) (l : List α) (h : p a = false) :
    (a :: l).find? p = l.find? p := by
  simp [List.find?_cons, h]

/-- Python max with a key function returns the first element attaining
the maximal key: the strict-replacement fold of pyMaxBy coincides with
searching for the first element whose key equals the list maximum. -/
lemma pyMaxBy_eq_first_max (f : α → Nat) (x : α) (xs : List α) :
    (x :: xs).find? (fun c => f c == pyListMax ((x :: xs).map f))
      = some (xs.foldl (fun best y => if f best < f y then y else best) x) := by
  induction xs generalizing x with
  | nil => simp [pyListMax]
  | cons y ys ih =>
    have hM : pyListMax ((x :: y :: ys).map f)
        = (ys.map f).foldl Nat.max (Nat.max (f x) (f y)) := rfl
    have hfy_le : f y ≤ pyListMax ((x :: y :: ys).map f) := by
      rw [hM]; exact Nat.le_trans (Nat.le_max_right (f x) (f y)) (le_foldl_max _ _)
    have hfx_le : f x ≤ pyListMax ((x :: y :: ys).map f) := by
      rw [hM]; exact Nat.le_trans (Nat.le_max_left (f x) (f y)) (le_foldl_max _ _)
    by_cases hx : f x = pyListMax ((x :: y :: ys).map f)
    · have hxy : ¬ f x < f y := fun hlt =>
        Nat.lt_irrefl _ (Nat.lt_of_lt_of_le hlt (hx ▸ hfy_le))
      have hpx : (f x == pyListMax ((x :: y :: ys).map f)) = true := by
        rw [hx]; exact beq_self_eq_true _
      rw [find?_head _ x (y :: ys) hpx]
      have hfold1 : (y :: ys).foldl (fun best z => if f best < f z then z else best) x
          = ys.foldl (fun best z => if f best < f z then z else best) x := by
        rw [List.foldl_cons]
        congr 1
        show (if f x < f y then y else x) = x
        exact if_neg hxy
      rw [hfold1]
      have hM2 : pyListMax ((x :: ys).map f) = pyListMax ((x :: y :: ys).map f) := by
        rw [hM, nat_max_left (Nat.le_of_not_lt hxy)]
        rfl
      have hihx := ih x
      rw [hM2, find?_head _ x ys hpx] at hihx
      exact hihx
    · have hpx : (f x == pyListMax ((x :: y :: ys).map f)) = false := by
        rw [beq_eq_false_iff_ne]; exact hx
      rw [find?_tail _ x (y :: ys) hpx]
      by_cases hxy : f x < f y
      · have hfold1 : (y :: ys).foldl (fun best z => if f best < f z then z else best) x
            = ys.foldl (fun best z => if f best < f z then z else best) y := by
          rw [List.foldl_cons]
          congr 1
          show (if f x < f y then y else x) = y
          exact if_pos hxy
        rw [hfold1]
        have hM3 : pyListMax ((y :: ys).map f) = pyListMax ((x :: y :: ys).map f) := by
          rw [hM, nat_max_right (Nat.le_of_lt hxy)]
          rfl
        have hihy := ih y
        rw [hM3] at hihy
        exact hihy
      · have hfold1 : (y :: ys).foldl (fun best z => if f best < f z then z else best) x
            = ys.foldl (fun best z => if f best < f z then z else best) x := by
          rw [List.foldl_cons]
          congr 1
          show (if f x < f y then y else x) = x
          exact if_neg hxy
        rw [hfold1]
        have hfy : f y < pyListMax ((x :: y :: ys).map f) :=
          Nat.lt_of_le_of_lt (Nat.le_of_not_lt hxy) (Nat.lt_of_le_of_ne hfx_le hx)
        have hpy : (f y == pyListMax ((x :: y :: ys).map f)) = false := by
          rw [beq_eq_false_iff_ne]; exact Nat.ne_of_lt hfy
        rw [find?_tail _ y ys hpy]
        have hM2 : pyListMax ((x :: ys).map f) = pyListMax ((x :: y :: ys).map f) := by
          rw [hM, nat_max_left (Nat.le_of_not_lt hxy)]
          rfl
        have hihx := ih x
        rw [hM2, find?_tail _ x ys hpx] at hihx
        exact hihx

/-- Bridge between the source shape of the classifier (Python max with a
key) and the spec shape (first category attaining the maximum, GENERAL
when all scores vanish), generic in the scoring function. -/
lemma maxsel_eq_first_max (f : α → Nat) (x : α) (xs : List α) (d : α) :
    (if 0 < pyListMax ((x :: xs).map f) then (pyMaxBy f (x :: xs)).getD d else d)
    = (if ((x :: xs).map f).foldl Nat.max 0 = 0 then d
       else ((x :: xs).find? (fun c => f c == ((x :: xs).map f).foldl Nat.max 0)).getD d) := by
  have hfold : ((x :: xs).map f).foldl Nat.max 0 = pyListMax ((x :: xs).map f) := by
    show ((f x :: xs.map f)).foldl Nat.max 0 = _
    rw [← pyListMax_eq_foldl_zero]
    rfl
  rw [hfold]
  by_cases h0 : pyListMax ((x :: xs).map f) = 0
  · have hnot : ¬ 0 < pyListMax ((x :: xs).map f) := by
      rw [h0]; exact Nat.lt_irrefl 0
    rw [if_neg hnot, if_pos h0]
  · have hpos : 0 < pyListMax ((x :: xs).map f) := Nat.pos_of_ne_zero h0
    rw [if_pos hpos, if_neg h0]
    show (some (xs.foldl (fun best y => if f best < f y then y else best) x)).getD d = _
    rw [pyMaxBy_eq_first_max f x xs]

/-- C8 (confirmed): the categorizer lowercases the concatenation of
title and summary, scores every category by the number of its keywords
occurring in the text, and returns the category with the strictly
highest score, ties broken in favour of the first category reaching the
maximum in canonical enumeration order; when every score is zero — in
particular on empty title and summary — it returns GENERAL.  Stated as a
refinement: the translation of the source (categorizeArticle) coincides
with the classifier written from the words of the spec (specClassify),
and the empty input yields GENERAL.  Determinism is immediate since both
are pure functions of the two strings. -/
theorem claim_C8_classifier_matches_spec :
    (∀ title summary, categorizeArticle title summary = specClassify title summary)
    ∧ categorizeArticle "" "" = ArticleCategory.GENERAL := by
  refine ⟨fun title summary => ?_, by decide⟩
  exact maxsel_eq_first_max (scoreFor (pyLower (title ++ " " ++ summary)))
    ArticleCategory.POLITICS
    [.TECHNOLOGY, .SPORTS, .BUSINESS, .ENTERTAINMENT, .SCIENCE, .HEALTH, .GENERAL]
    ArticleCategory.GENERAL

/-- An insertion sort is empty exactly when its input is. -/
lemma insertionSort_eq_nil_iff {r : α → α → Prop} [DecidableRel r] {l : List α} :
    l.insertionSort r = [] ↔ l = [] := by
  constructor
  · intro h
    exact ((h ▸ List.perm_insertionSort r l).symm).eq_nil
  · intro h
    rw [h]
    rfl

/-- Membership is preserved by insertion sort. -/
lemma mem_insertionSort {r : α → α → Prop} [DecidableRel r] {l : List α} {a : α} :
    a ∈ l.insertionSort r ↔ a ∈ l :=
  (List.perm_insertionSort r l).mem_iff

/-- The Bool membership test inIds agrees with list membership. -/
lemma inIds_iff {ids : List Nat} {i : Nat} : inIds ids i = true ↔ i ∈ ids := by
  constructor
  · intro h
    obtain ⟨j, hj, hji⟩ := List.any_eq_true.mp h
    exact (beq_iff_eq.mp hji) ▸ hj
  · intro h
    exact List.any_eq_true.mpr ⟨i, h, beq_self_eq_true i⟩

/-- get_personalized_feed returns [] whenever the joined read history of
the user is nonempty: line 330 performs attribute access on dicts, the
AttributeError is caught by the blanket handler, and [] is returned. -/
lemma feed_empty_of_history (db : DB) (uid limit : Nat)
    (h : get_user_read_history db uid ≠ []) :
    get_personalized_feed db uid limit = [] := by
  have hcond : (get_user_read_history db uid).isEmpty = false := by
    cases hE : (get_user_read_history db uid).isEmpty
    · rfl
    · exact absurd (List.isEmpty_iff.mp hE) h
  simp [get_personalized_feed, hcond]

/-- get_personalized_feed returns [] whenever the user has at least one
preference row: the loop reads pref.source_id, which the UserPreference
model lacks, the AttributeError is caught, and [] is returned (when the
history is also nonempty the previous lemma applies first). -/
lemma feed_empty_of_prefs (db : DB) (uid limit : Nat)
    (h : get_user_preferences db uid ≠ []) :
    get_personalized_feed db uid limit = [] := by
  by_cases hh : get_user_read_history db uid = []
  · have hp : (get_user_preferences db uid).isEmpty = false := by
      cases hE : (get_user_preferences db uid).isEmpty
      · rfl
      · exact absurd (List.isEmpty_iff.mp hE) h
    simp [get_personalized_feed, hh, hp]
  · exact feed_empty_of_history db uid limit hh

/-- For a user with no preference rows and no readable history the feed
is exactly the limit most recent articles: the backfill query can never
contribute, because it only runs when the first query already returned
the whole table. -/
lemma feed_eq_take (db : DB) (uid limit : Nat)
    (hp : get_user_preferences db uid = [])
    (hh : get_user_read_history db uid = []) :
    get_personalized_feed db uid limit
      = (db.articles.insertionSort pubDesc).take limit := by
  unfold get_personalized_feed
  rw [hh, hp]
  show (if ((db.articles.insertionSort pubDesc).take limit).length < limit / 2 then
        ((db.articles.insertionSort pubDesc).take limit) ++
          ((db.articles.filter (fun a =>
              !inIds ((((db.articles.insertionSort pubDesc).take limit).map
                (fun b => b.id)) ++ ([] : List Nat)) a.id)).insertionSort pubDesc).take
            (limit - ((db.articles.insertionSort pubDesc).take limit).length)
      else ((db.articles.insertionSort pubDesc).take limit))
      = (db.articles.insertionSort pubDesc).take limit
  by_cases hc : ((db.articles.insertionSort pubDesc).take limit).length < limit / 2
  · rw [if_pos hc]
    have hL : (db.articles.insertionSort pubDesc).length ≤ limit := by
      by_contra hgt
      have hfull : ((db.articles.insertionSort pubDesc).take limit).length = limit :=
        List.length_take_of_le (Nat.le_of_lt (lt_of_not_le hgt))
      rw [hfull] at hc
      exact Nat.lt_irrefl _ (Nat.lt_of_lt_of_le hc (Nat.div_le_self _ _))
    have htake : (db.articles.insertionSort pubDesc).take limit
        = db.articles.insertionSort pubDesc := List.take_of_length_le hL
    have hfilter : db.articles.filter (fun a =>
        !inIds ((((db.articles.insertionSort pubDesc).take limit).map
          (fun b => b.id)) ++ ([] : List Nat)) a.id) = [] := by
      apply List.filter_eq_nil_iff.mpr
      intro a ha
      rw [htake]
      have hmem : a.id ∈ (db.articles.insertionSort pubDesc).map (fun b => b.id) :=
        List.mem_map.mpr ⟨a, mem_insertionSort.mpr ha, rfl⟩
      have hin : inIds (((db.articles.insertionSort pubDesc).map (fun b => b.id))
          ++ ([] : List Nat)) a.id = true := by
        rw [List.append_nil]
        exact inIds_iff.mpr hmem
      rw [hin]
      exact Bool.not_true ▸ fun hx => Bool.false_ne_true hx
    rw [hfilter]
    have hnil : List.insertionSort pubDesc ([] : List Article) = [] := rfl
    rw [hnil, List.take_nil, List.append_nil]
  · rw [if_neg hc]

/-- The joined read history of a user is empty exactly when no stored
article matches any of the user read-history rows. -/
lemma read_history_empty_iff (db : DB) (uid : Nat) :
    get_user_read_history db uid = []
      ↔ ∀ h ∈ db.history, h.user_id = uid → ∀ a ∈ db.articles, a.id ≠ h.article_id := by
  unfold get_user_read_history
  rw [insertionSort_eq_nil_iff, List.flatMap_eq_nil_iff]
  constructor
  · intro H h hh huid a ha heq
    have hmem : h ∈ db.history.filter (fun x => x.user_id == uid) :=
      List.mem_filter.mpr ⟨hh, beq_iff_eq.mpr huid⟩
    have hmap := H h hmem
    rw [List.map_eq_nil_iff] at hmap
    exact (List.filter_eq_nil_iff.mp hmap a ha) (beq_iff_eq.mpr heq)
  · intro H x hx
    rw [List.map_eq_nil_iff, List.filter_eq_nil_iff]
    intro a ha hbeq
    obtain ⟨hxh, hxu⟩ := List.mem_filter.mp hx
    exact H x hxh (beq_iff_eq.mp hxu) a ha (beq_iff_eq.mp hbeq)

/-- C1 (corrected), counterexample: on the exact scenario of the claim —
user 1 with preference weights 0.8 on TECHNOLOGY (above the 0.3
threshold) and 0.1 on SPORTS (below it), ten unread TECHNOLOGY and ten
unread SPORTS articles, limit 5 — get_personalized_feed returns the
empty list, not the five most recent TECHNOLOGY articles: the claimed
weight threshold appears nowhere in the code, and the function aborts on
the missing pref.source_id attribute for any user with preference
rows. -/
theorem claim_C1_counterexample :
    ((Rat.mk' 3 10 < Rat.mk' 4 5) ∧ ¬ (Rat.mk' 3 10 < Rat.mk' 1 10))
    ∧ get_personalized_feed exDB1 1 5 = []
    ∧ (get_personalized_feed exDB1 1 5).length ≠ 5 := by
  have hp : get_user_preferences exDB1 1 ≠ [] := by
    unfold get_user_preferences
    rw [Ne, insertionSort_eq_nil_iff]
    decide
  have hfeed := feed_empty_of_prefs exDB1 1 5 hp
  refine ⟨by constructor <;> decide, hfeed, ?_⟩
  rw [hfeed]
  decide

/-- C1 (corrected), amended claim: get_personalized_feed applies no
weight threshold at all; for every user holding at least one stored
preference row (whatever the weights) it returns the empty list, because
the preference loop reads the nonexistent source_id attribute and the
blanket exception handler turns that into [].  In the scenario of the
claim the returned set is therefore empty — it is not the five most
recent TECHNOLOGY articles, though it vacuously contains no SPORTS
article. -/
theorem claim_C1_feed_empty_for_users_with_prefs (db : DB) (uid limit : Nat)
    (h : get_user_preferences db uid ≠ []) :
    get_personalized_feed db uid limit = [] :=
  feed_empty_of_prefs db uid limit h

/-- C1 witness: the amended claim applied to the concrete store of the
scenario, at limit 7. -/
theorem claim_C1_witness :
    get_user_preferences exDB1 1 ≠ [] ∧ get_personalized_feed exDB1 1 7 = [] := by
  have hp : get_user_preferences exDB1 1 ≠ [] := by
    unfold get_user_preferences
    rw [Ne, insertionSort_eq_nil_iff]
    decide
  exact ⟨hp, claim_C1_feed_empty_for_users_with_prefs exDB1 1 7 hp⟩

/-- C2 (corrected), counterexample: on the scenario of the claim — a
user whose preferred pool holds 3 unread articles, limit 20, 23 unread
articles stored — the returned sequence is empty, not 20 items: the
user has a preference row, so the feed computation aborts before any
query or backfill runs. -/
theorem claim_C2_counterexample :
    20 ≤ exDB2.articles.length
    ∧ get_personalized_feed exDB2 1 20 = []
    ∧ (get_personalized_feed exDB2 1 20).length ≠ 20 := by
  have hp : get_user_preferences exDB2 1 ≠ [] := by
    unfold get_user_preferences
    rw [Ne, insertionSort_eq_nil_iff]
    decide
  have hfeed := feed_empty_of_prefs exDB2 1 20 hp
  refine ⟨by decide, hfeed, ?_⟩
  rw [hfeed]
  decide

/-- C2 (corrected), amended claim: the first-tier query and the backfill
only ever run for a user with no preference rows and no readable
history — every other user receives the empty list.  In that sole
reachable case the first query already returns the limit most recent
articles of the whole table, and the backfill (which fires only below
limit/2, not below limit) provably adds nothing, because it excludes
every id the first query selected and that query returned the whole
table whenever it fell short of the limit.  So the feed is [] for users
with preferences or history, and exactly the limit most recent articles
otherwise; the claimed topping-up to limit items from a 3-item preferred
pool never happens. -/
theorem claim_C2_backfill_never_tops_up (db : DB) (uid limit : Nat) :
    ((get_user_preferences db uid ≠ [] ∨ get_user_read_history db uid ≠ []) →
      get_personalized_feed db uid limit = [])
    ∧ (get_user_preferences db uid = [] → get_user_read_history db uid = [] →
      get_personalized_feed db uid limit
        = (db.articles.insertionSort pubDesc).take limit) := by
  constructor
  · rintro (h | h)
    · exact feed_empty_of_prefs db uid limit h
    · exact feed_empty_of_history db uid limit h
  · intro hp hh
    exact feed_eq_take db uid limit hp hh

/-- C2 witness: the amended claim applied to the three-article store
with no preferences and no history; the feed is the three articles in
recency order, far short of the limit of 20, with nothing backfilled. -/
theorem claim_C2_witness :
    get_user_preferences exDB3 1 = []
    ∧ get_user_read_history exDB3 1 = []
    ∧ get_personalized_feed exDB3 1 20 = (exDB3.articles.insertionSort pubDesc).take 20
    ∧ (get_personalized_feed exDB3 1 20).map (fun a => a.id) = [3, 2, 1] := by
  refine ⟨by decide, by decide, ?_, by decide⟩
  exact (claim_C2_backfill_never_tops_up exDB3 1 20).2 (by decide) (by decide)

/-- C3 (confirmed): the personalized feed never contains an article the
user has read, regardless of categories or weights, and never contains
two articles with the same id (assuming the stored article ids are
distinct, the primary-key invariant).  The exclusion holds on every
control path of the source: whenever the user has any readable history
the handler returns [], and when the history is empty there is nothing
to exclude. -/
theorem claim_C3_read_excluded_no_dups (db : DB) (uid limit aid : Nat) :
    ((∃ h ∈ db.history, h.user_id = uid ∧ h.article_id = aid) →
      ∀ a ∈ get_personalized_feed db uid limit, a.id ≠ aid)
    ∧ ((db.articles.map (fun a => a.id)).Nodup →
      ((get_personalized_feed db uid limit).map (fun a => a.id)).Nodup) := by
  constructor
  · rintro ⟨h0, hh0, hu0, ha0⟩ a hmem
    by_cases hh : get_user_read_history db uid = []
    · have hnone := (read_history_empty_iff db uid).mp hh h0 hh0 hu0
      by_cases hp : get_user_preferences db uid = []
      · rw [feed_eq_take db uid limit hp hh] at hmem
        have hart : a ∈ db.articles :=
          mem_insertionSort.mp ((List.take_sublist _ _).subset hmem)
        exact ha0 ▸ hnone a hart
      · rw [feed_empty_of_prefs db uid limit hp] at hmem
        exact absurd hmem (List.not_mem_nil a)
    · rw [feed_empty_of_history db uid limit hh] at hmem
      exact absurd hmem (List.not_mem_nil a)
  · intro hnodup
    by_cases hh : get_user_read_history db uid = []
    · by_cases hp : get_user_preferences db uid = []
      · rw [feed_eq_take db uid limit hp hh]
        have hperm : ((db.articles.insertionSort pubDesc).map (fun a => a.id)).Perm
            (db.articles.map (fun a => a.id)) :=
          (List.perm_insertionSort _ _).map _
        have hnodup2 : ((db.articles.insertionSort pubDesc).map (fun a => a.id)).Nodup :=
          hperm.symm.nodup hnodup
        have hsub : (((db.articles.insertionSort pubDesc).take limit).map
            (fun a => a.id)).Sublist
            ((db.articles.insertionSort pubDesc).map (fun a => a.id)) :=
          (List.take_sublist _ _).map _
        exact hsub.nodup hnodup2
      · rw [feed_empty_of_prefs db uid limit hp]
        exact List.nodup_nil
    · rw [feed_empty_of_history db uid limit hh]
      exact List.nodup_nil

/-- C3 witness: in the two-article store where user 1 has read the
article with id 1, the feed does not contain that article and carries no
duplicate ids. -/
theorem claim_C3_witness :
    exReadArticle ∉ get_personalized_feed exDB4 1 20
    ∧ ((get_personalized_feed exDB4 1 20).map (fun a => a.id)).Nodup :=
  ⟨fun hmem =>
     (claim_C3_read_excluded_no_dups exDB4 1 20 1).1
       ⟨⟨1, 1, 0, none⟩, by decide, rfl, rfl⟩ exReadArticle hmem rfl,
   (claim_C3_read_excluded_no_dups exDB4 1 20 1).2 (by decide)⟩

/-- The Bool existence test on stored urls agrees with membership in the
projected url list. -/
lemma any_url_iff {st : List Article} {u : String} :
    st.any (fun a => a.source_url == u) = true ↔ u ∈ st.map (fun a => a.source_url) := by
  rw [List.any_eq_true]
  constructor
  · rintro ⟨a, ha, hb⟩
    exact List.mem_map.mpr ⟨a, ha, beq_iff_eq.mp hb⟩
  · intro h
    obtain ⟨a, ha, he⟩ := List.mem_map.mp h
    exact ⟨a, ha, beq_iff_eq.mpr he⟩

/-- Negative form of the url existence test. -/
lemma any_url_eq_false {st : List Article} {u : String} :
    st.any (fun a => a.source_url == u) = false
      ↔ u ∉ st.map (fun a => a.source_url) := by
  constructor
  · intro h hc
    rw [← any_url_iff] at hc
    rw [h] at hc
    exact Bool.false_ne_true hc
  · intro h
    cases hb : st.any (fun a => a.source_url == u)
    · rfl
    · exact absurd (any_url_iff.mp hb) h

/-- Python slicing is the identity on strings within the bound. -/
lemma pySlice_of_le {s : String} {n : Nat} (h : s.data.length ≤ n) :
    pySlice s n = s := by
  unfold pySlice
  rw [List.take_of_length_le h]

/-- The stored url of a freshly inserted article is the url of its
payload. -/
lemma insertedArticle_url (ac : ArticleCreate) :
    (insertedArticle ac).source_url = ac.source_url := rfl

/-- The stored url of a payload built by the batched-variant loop is
the candidate url truncated to 500 code points. -/
lemma payload_url (sid : Nat) (ad : ArticleData) :
    (articleCreatePayload sid ad).source_url = pySlice ad.source_url 500 := rfl

/-- The stored url of a payload built by the per-item-variant loop is
the candidate url unchanged. -/
lemma payloadV2_url (sid : Nat) (ad : ArticleData) :
    (articleCreatePayloadV2 sid ad).source_url = ad.source_url := rfl

/-- An empty parsed summary makes the ArticleCreate validation fail. -/
lemma toCreate_err_of {sid : Nat} {ad : ArticleData} (h : ad.summary = "") :
    toArticleCreate sid ad = .error () := by
  unfold toArticleCreate
  rw [if_pos (beq_iff_eq.mpr h)]

/-- A nonempty parsed summary makes the ArticleCreate validation
succeed with the payload. -/
lemma toCreate_ok_of {sid : Nat} {ad : ArticleData} (h : ¬ ad.summary = "") :
    toArticleCreate sid ad = .ok (articleCreatePayload sid ad) := by
  unfold toArticleCreate
  rw [if_neg]
  intro hc
  exact h (beq_iff_eq.mp hc)

/-- A failed ArticleCreate validation means the summary was empty. -/
lemma toCreate_error_summary {sid : Nat} {ad : ArticleData}
    (h : toArticleCreate sid ad = .error ()) : ad.summary = "" := by
  by_cases hs : ad.summary = ""
  · exact hs
  · rw [toCreate_ok_of hs] at h
    exact absurd h (by simp)

/-- A successful ArticleCreate validation yields exactly the payload. -/
lemma toCreate_ok_payload {sid : Nat} {ad : ArticleData} {ac : ArticleCreate}
    (h : toArticleCreate sid ad = .ok ac) : ac = articleCreatePayload sid ad := by
  by_cases hs : ad.summary = ""
  · rw [toCreate_err_of hs] at h
    exact absurd h (by simp)
  · rw [toCreate_ok_of hs] at h
    injection h with h2
    exact h2.symm

/-- Validation failure in the per-item variant, likewise on an empty
summary. -/
lemma toCreateV2_err_of {sid : Nat} {ad : ArticleData} (h : ad.summary = "") :
    toArticleCreateV2 sid ad = .error () := by
  unfold toArticleCreateV2
  rw [if_pos (beq_iff_eq.mpr h)]

/-- Validation success in the per-item variant. -/
lemma toCreateV2_ok_of {sid : Nat} {ad : ArticleData} (h : ¬ ad.summary = "") :
    toArticleCreateV2 sid ad = .ok (articleCreatePayloadV2 sid ad) := by
  unfold toArticleCreateV2
  rw [if_neg]
  intro hc
  exact h (beq_iff_eq.mp hc)

/-- A failed validation in the per-item variant means the summary was
empty. -/
lemma toCreateV2_error_summary {sid : Nat} {ad : ArticleData}
    (h : toArticleCreateV2 sid ad = .error ()) : ad.summary = "" := by
  by_cases hs : ad.summary = ""
  · exact hs
  · rw [toCreateV2_ok_of hs] at h
    exact absurd h (by simp)

/-- A successful validation in the per-item variant yields exactly the
payload. -/
lemma toCreateV2_ok_payload {sid : Nat} {ad : ArticleData} {ac : ArticleCreate}
    (h : toArticleCreateV2 sid ad = .ok ac) : ac = articleCreatePayloadV2 sid ad := by
  by_cases hs : ad.summary = ""
  · rw [toCreateV2_err_of hs] at h
    exact absurd h (by simp)
  · rw [toCreateV2_ok_of hs] at h
    injection h with h2
    exact h2.symm

/-- A successful insert appends exactly one row. -/
lemma create_article_ok_super {st : List Article} {ac : ArticleCreate} {st2 : List Article}
    (hc : create_article st ac = .ok st2) : st2 = st ++ [insertedArticle ac] := by
  unfold create_article at hc
  by_cases h : st.any (fun a => a.source_url == ac.source_url) = true
  · rw [if_pos h] at hc
    exact absurd hc (by simp)
  · rw [if_neg h] at hc
    injection hc with h2
    exact h2.symm

/-- A failed insert means the stored urls already contain the payload
url (the uniqueness constraint fired). -/
lemma create_article_err {st : List Article} {ac : ArticleCreate}
    (hc : create_article st ac = .error ()) :
    st.any (fun a => a.source_url == ac.source_url) = true := by
  unfold create_article at hc
  by_cases h : st.any (fun a => a.source_url == ac.source_url) = true
  · exact h
  · rw [if_neg h] at hc
    exact absurd hc (by simp)

/-- Unfolding of the batched-check loop when the batch-existence test
holds for the head. -/
lemma saveLoop_cons_skip (ex : String → Bool) (sid : Nat) (ad : ArticleData)
    (rest : List ArticleData) (count : Nat) (st : List Article)
    (h : ex ad.source_url = true) :
    saveLoop ex sid (ad :: rest) count st = saveLoop ex sid rest count st := by
  simp [saveLoop, h]

/-- Unfolding of the batched-check loop when the head fails the
ArticleCreate validation: the error is caught and the loop
continues. -/
lemma saveLoop_cons_invalid (ex : String → Bool) (sid : Nat) (ad : ArticleData)
    (rest : List ArticleData) (count : Nat) (st : List Article)
    (h : ex ad.source_url = false)
    (hv : toArticleCreate sid ad = .error ()) :
    saveLoop ex sid (ad :: rest) count st = saveLoop ex sid rest count st := by
  simp [saveLoop, h, hv]

/-- Unfolding of the batched-check loop when the head validates and is
inserted. -/
lemma saveLoop_cons_ok (ex : String → Bool) (sid : Nat) (ad : ArticleData)
    (rest : List ArticleData) (count : Nat) (st : List Article)
    (ac : ArticleCreate) (st2 : List Article)
    (h : ex ad.source_url = false)
    (hv : toArticleCreate sid ad = .ok ac)
    (hc : create_article st ac = .ok st2) :
    saveLoop ex sid (ad :: rest) count st = saveLoop ex sid rest (count + 1) st2 := by
  simp [saveLoop, h, hv, hc]

/-- Unfolding of the batched-check loop when the head validates but its
insert fails on the uniqueness constraint: the error is caught and the
loop continues unchanged. -/
lemma saveLoop_cons_err (ex : String → Bool) (sid : Nat) (ad : ArticleData)
    (rest : List ArticleData) (count : Nat) (st : List Article)
    (ac : ArticleCreate)
    (h : ex ad.source_url = false)
    (hv : toArticleCreate sid ad = .ok ac)
    (hc : create_article st ac = .error ()) :
    saveLoop ex sid (ad :: rest) count st = saveLoop ex sid rest count st := by
  simp [saveLoop, h, hv, hc]

/-- Unfolding of the per-item-check loop when the head url is already in
the current table. -/
lemma saveLoopV2_cons_skip (sid : Nat) (ad : ArticleData)
    (rest : List ArticleData) (count : Nat) (st : List Article)
    (h : st.any (fun a => a.source_url == ad.source_url) = true) :
    saveLoopV2 sid (ad :: rest) count st = saveLoopV2 sid rest count st := by
  simp [saveLoopV2, h]

/-- Unfolding of the per-item-check loop when the head fails the
ArticleCreate validation. -/
lemma saveLoopV2_cons_invalid (sid : Nat) (ad : ArticleData)
    (rest : List ArticleData) (count : Nat) (st : List Article)
    (h : st.any (fun a => a.source_url == ad.source_url) = false)
    (hv : toArticleCreateV2 sid ad = .error ()) :
    saveLoopV2 sid (ad :: rest) count st = saveLoopV2 sid rest count st := by
  simp [saveLoopV2, h, hv]

/-- Unfolding of the per-item-check loop when the head validates and is
inserted. -/
lemma saveLoopV2_cons_ok (sid : Nat) (ad : ArticleData)
    (rest : List ArticleData) (count : Nat) (st : List Article)
    (ac : ArticleCreate) (st2 : List Article)
    (h : st.any (fun a => a.source_url == ad.source_url) = false)
    (hv : toArticleCreateV2 sid ad = .ok ac)
    (hc : create_article st ac = .ok st2) :
    saveLoopV2 sid (ad :: rest) count st = saveLoopV2 sid rest (count + 1) st2 := by
  simp [saveLoopV2, h, hv, hc]

/-- Unfolding of the per-item-check loop when the head validates but its
insert fails; the error is caught and the loop continues. -/
lemma saveLoopV2_cons_err (sid : Nat) (ad : ArticleData)
    (rest : List ArticleData) (count : Nat) (st : List Article)
    (ac : ArticleCreate)
    (h : st.any (fun a => a.source_url == ad.source_url) = false)
    (hv : toArticleCreateV2 sid ad = .ok ac)
    (hc : create_article st ac = .error ()) :
    saveLoopV2 sid (ad :: rest) count st = saveLoopV2 sid rest count st := by
  simp [saveLoopV2, h, hv, hc]

/-- The batched-check ingestion loop, on a batch of distinct and short
urls whose membership in the current table agrees with the original
store: it inserts exactly the candidates whose url is not already
stored and whose summary is nonempty (the others are skipped by the
dedup check or by the ArticleCreate validation), appending them in
order, and counts them. -/
lemma saveLoop_dedup (store : List Article) (sid : Nat) :
    ∀ (data : List ArticleData) (count : Nat) (st : List Article),
    (∀ ad ∈ data, ad.source_url.data.length ≤ 500) →
    (data.map (fun ad => ad.source_url)).Nodup →
    (∀ ad ∈ data, (ad.source_url ∈ st.map (fun a => a.source_url)
        ↔ ad.source_url ∈ store.map (fun a => a.source_url))) →
    saveLoop (fun u => store.any (fun a => a.source_url == u)) sid data count st
      = (count + (data.filter (fun ad =>
            !(store.any (fun a => a.source_url == ad.source_url))
              && !(ad.summary == ""))).length,
         st ++ (data.filter (fun ad =>
            !(store.any (fun a => a.source_url == ad.source_url))
              && !(ad.summary == ""))).map
           (fun ad => insertedArticle (articleCreatePayload sid ad)))
  | [], count, st, _, _, _ => by simp [saveLoop]
  | ad :: rest, count, st, hlen, hnodup, hst => by
    have hlen_ad := hlen ad (List.mem_cons_self ad rest)
    have hlen_rest : ∀ x ∈ rest, x.source_url.data.length ≤ 500 :=
      fun x hx => hlen x (List.mem_cons_of_mem ad hx)
    obtain ⟨hhead, hnodup_rest⟩ := List.nodup_cons.mp hnodup
    have hst_ad := hst ad (List.mem_cons_self ad rest)
    have hst_rest : ∀ x ∈ rest, (x.source_url ∈ st.map (fun a => a.source_url)
        ↔ x.source_url ∈ store.map (fun a => a.source_url)) :=
      fun x hx => hst x (List.mem_cons_of_mem ad hx)
    cases hex : store.any (fun a => a.source_url == ad.source_url) with
    | true =>
      rw [saveLoop_cons_skip (fun u => store.any (fun a => a.source_url == u))
            sid ad rest count st hex,
          saveLoop_dedup store sid rest count st hlen_rest hnodup_rest hst_rest,
          List.filter_cons]
      simp [hex]
    | false =>
      by_cases hs : ad.summary = ""
      · have hsb : (ad.summary == "") = true := beq_iff_eq.mpr hs
        rw [saveLoop_cons_invalid (fun u => store.any (fun a => a.source_url == u))
              sid ad rest count st hex (toCreate_err_of hs),
            saveLoop_dedup store sid rest count st hlen_rest hnodup_rest hst_rest,
            List.filter_cons]
        simp [hex, hsb]
      · have hsb : (ad.summary == "") = false := by
          rw [beq_eq_false_iff_ne]
          exact hs
        have hnotst : ad.source_url ∉ st.map (fun a => a.source_url) := by
          intro hc
          exact absurd (hst_ad.mp hc) (any_url_eq_false.mp hex)
        have hurl : (articleCreatePayload sid ad).source_url = ad.source_url := by
          rw [payload_url]
          exact pySlice_of_le hlen_ad
        have hcreate : create_article st (articleCreatePayload sid ad)
            = .ok (st ++ [insertedArticle (articleCreatePayload sid ad)]) := by
          unfold create_article
          rw [if_neg]
          intro hc
          rw [hurl] at hc
          exact absurd (any_url_iff.mp hc) hnotst
        have hst2 : ∀ x ∈ rest, (x.source_url ∈ (st ++ [insertedArticle
              (articleCreatePayload sid ad)]).map (fun a => a.source_url)
            ↔ x.source_url ∈ store.map (fun a => a.source_url)) := by
          intro x hx
          have hxne : x.source_url ≠ ad.source_url := by
            intro he
            exact hhead (List.mem_map.mpr ⟨x, hx, he⟩)
          rw [List.map_append, List.mem_append]
          constructor
          · rintro (hin | hin)
            · exact (hst x (List.mem_cons_of_mem ad hx)).mp hin
            · exfalso
              simp only [List.map_cons, List.map_nil, List.mem_singleton] at hin
              rw [insertedArticle_url, hurl] at hin
              exact hxne hin
          · intro hin
            exact Or.inl ((hst x (List.mem_cons_of_mem ad hx)).mpr hin)
        rw [saveLoop_cons_ok (fun u => store.any (fun a => a.source_url == u))
              sid ad rest count st _ _ hex (toCreate_ok_of hs) hcreate,
            saveLoop_dedup store sid rest (count + 1)
              (st ++ [insertedArticle (articleCreatePayload sid ad)])
              hlen_rest hnodup_rest hst2]
        have hfc : (ad :: rest).filter (fun ad2 =>
            !(store.any (fun a => a.source_url == ad2.source_url))
              && !(ad2.summary == ""))
            = ad :: rest.filter (fun ad2 =>
            !(store.any (fun a => a.source_url == ad2.source_url))
              && !(ad2.summary == "")) := by
          rw [List.filter_cons]
          simp [hex, hsb]
        rw [hfc, Prod.mk.injEq]
        constructor
        · rw [List.length_cons]
          omega
        · rw [List.map_cons, List.append_assoc]
          rfl

/-- The per-item-check ingestion loop, on a batch of distinct urls whose
membership in the current table agrees with the original store: it
inserts exactly the candidates whose url is not already stored and
whose summary is nonempty. -/
lemma saveLoopV2_dedup (store : List Article) (sid : Nat) :
    ∀ (data : List ArticleData) (count : Nat) (st : List Article),
    (data.map (fun ad => ad.source_url)).Nodup →
    (∀ ad ∈ data, (ad.source_url ∈ st.map (fun a => a.source_url)
        ↔ ad.source_url ∈ store.map (fun a => a.source_url))) →
    saveLoopV2 sid data count st
      = (count + (data.filter (fun ad =>
            !(store.any (fun a => a.source_url == ad.source_url))
              && !(ad.summary == ""))).length,
         st ++ (data.filter (fun ad =>
            !(store.any (fun a => a.source_url == ad.source_url))
              && !(ad.summary == ""))).map
           (fun ad => insertedArticle (articleCreatePayloadV2 sid ad)))
  | [], count, st, _, _ => by simp [saveLoopV2]
  | ad :: rest, count, st, hnodup, hst => by
    obtain ⟨hhead, hnodup_rest⟩ := List.nodup_cons.mp hnodup
    have hst_ad := hst ad (List.mem_cons_self ad rest)
    have hst_rest : ∀ x ∈ rest, (x.source_url ∈ st.map (fun a => a.source_url)
        ↔ x.source_url ∈ store.map (fun a => a.source_url)) :=
      fun x hx => hst x (List.mem_cons_of_mem ad hx)
    cases hex : st.any (fun a => a.source_url == ad.source_url) with
    | true =>
      have hexs : store.any (fun a => a.source_url == ad.source_url) = true :=
        any_url_iff.mpr (hst_ad.mp (any_url_iff.mp hex))
      rw [saveLoopV2_cons_skip sid ad rest count st hex,
          saveLoopV2_dedup store sid rest count st hnodup_rest hst_rest,
          List.filter_cons]
      simp [hexs]
    | false =>
      have hexs : store.any (fun a => a.source_url == ad.source_url) = false := by
        apply any_url_eq_false.mpr
        intro hc
        exact (any_url_eq_false.mp hex) (hst_ad.mpr hc)
      by_cases hs : ad.summary = ""
      · have hsb : (ad.summary == "") = true := beq_iff_eq.mpr hs
        rw [saveLoopV2_cons_invalid sid ad rest count st hex (toCreateV2_err_of hs),
            saveLoopV2_dedup store sid rest count st hnodup_rest hst_rest,
            List.filter_cons]
        simp [hexs, hsb]
      · have hsb : (ad.summary == "") = false := by
          rw [beq_eq_false_iff_ne]
          exact hs
        have hcreate : create_article st (articleCreatePayloadV2 sid ad)
            = .ok (st ++ [insertedArticle (articleCreatePayloadV2 sid ad)]) := by
          unfold create_article
          rw [payloadV2_url, if_neg]
          intro hc
          rw [hex] at hc
          exact Bool.false_ne_true hc
        have hst2 : ∀ x ∈ rest, (x.source_url ∈ (st ++ [insertedArticle
              (articleCreatePayloadV2 sid ad)]).map (fun a => a.source_url)
            ↔ x.source_url ∈ store.map (fun a => a.source_url)) := by
          intro x hx
          have hxne : x.source_url ≠ ad.source_url := by
            intro he
            exact hhead (List.mem_map.mpr ⟨x, hx, he⟩)
          rw [List.map_append, List.mem_append]
          constructor
          · rintro (hin | hin)
            · exact (hst x (List.mem_cons_of_mem ad hx)).mp hin
            · exfalso
              simp only [List.map_cons, List.map_nil, List.mem_singleton] at hin
              rw [insertedArticle_url, payloadV2_url] at hin
              exact hxne hin
          · intro hin
            exact Or.inl ((hst x (List.mem_cons_of_mem ad hx)).mpr hin)
        rw [saveLoopV2_cons_ok sid ad rest count st _ _ hex
              (toCreateV2_ok_of hs) hcreate,
            saveLoopV2_dedup store sid rest (count + 1)
              (st ++ [insertedArticle (articleCreatePayloadV2 sid ad)])
              hnodup_rest hst2]
        have hfc : (ad :: rest).filter (fun ad2 =>
            !(store.any (fun a => a.source_url == ad2.source_url))
              && !(ad2.summary == ""))
            = ad :: rest.filter (fun ad2 =>
            !(store.any (fun a => a.source_url == ad2.source_url))
              && !(ad2.summary == "")) := by
          rw [List.filter_cons]
          simp [hexs, hsb]
        rw [hfc, Prod.mk.injEq]
        constructor
        · rw [List.length_cons]
          omega
        · rw [List.map_cons, List.append_assoc]
          rfl

/-- C4 (corrected), counterexample: on the claim scenario of one stored
url and one new url, with both feed entries lacking a summary (so
parse_feed yields empty summaries, a perfectly ordinary feed shape),
ingest persists nothing and returns 0, not 1: the new candidate fails
the ArticleCreate validation of the required summary field and is
skipped by the per-item handler, in both variants. -/
theorem claim_C4_counterexample :
    parse_and_save_articles exStoreC4 3 exBatchC4 = (0, exStoreC4)
    ∧ parse_and_save_articles_v2 exStoreC4 3 exBatchC4 = (0, exStoreC4)
    ∧ (0 : Nat) ≠ 1 := by
  refine ⟨by decide, by decide, by decide⟩

/-- C4 (corrected), amended claim: on a batch of candidates with
pairwise distinct urls (each within the 500-character storage bound),
ingest persists exactly the candidates whose url is not already stored
AND whose summary is nonempty — candidates with an empty summary are
dropped by the schema validation of the required summary field — in
batch order, and returns their count, in both variants of
parse_and_save_articles.  On batches whose candidates all carry
summaries, this is the dedup behavior the claim describes: one stored
plus one new url yields count 1, and five candidates of which two are
stored yield count 3 with the store growing by 3 (see the witness). -/
theorem claim_C4_persists_validated_new (store : List Article) (sid : Nat)
    (data : List ArticleData)
    (hlen : ∀ ad ∈ data, ad.source_url.data.length ≤ 500)
    (hnodup : (data.map (fun ad => ad.source_url)).Nodup) :
    parse_and_save_articles store sid data
      = ((data.filter (fun ad =>
            !(store.any (fun a => a.source_url == ad.source_url))
              && !(ad.summary == ""))).length,
         store ++ (data.filter (fun ad =>
            !(store.any (fun a => a.source_url == ad.source_url))
              && !(ad.summary == ""))).map
           (fun ad => insertedArticle (articleCreatePayload sid ad)))
    ∧ parse_and_save_articles_v2 store sid data
      = ((data.filter (fun ad =>
            !(store.any (fun a => a.source_url == ad.source_url))
              && !(ad.summary == ""))).length,
         store ++ (data.filter (fun ad =>
            !(store.any (fun a => a.source_url == ad.source_url))
              && !(ad.summary == ""))).map
           (fun ad => insertedArticle (articleCreatePayloadV2 sid ad))) := by
  constructor
  · unfold parse_and_save_articles
    by_cases hd : data.isEmpty = true
    · have hnil : data = [] := List.isEmpty_iff.mp hd
      subst hnil
      simp
    · rw [if_neg hd,
          saveLoop_dedup store sid data 0 store hlen hnodup (fun ad _ => Iff.rfl),
          Nat.zero_add]
  · unfold parse_and_save_articles_v2
    rw [saveLoopV2_dedup store sid data 0 store hnodup (fun ad _ => Iff.rfl),
        Nat.zero_add]

/-- C4 witness: the five-candidate batch of valid items against the
two-article store — count 3 is returned and the store grows by exactly
3, in both variants. -/
theorem claim_C4_witness :
    (parse_and_save_articles exStore4 7 exBatch5).1 = 3
    ∧ (parse_and_save_articles exStore4 7 exBatch5).2.length = exStore4.length + 3
    ∧ (parse_and_save_articles_v2 exStore4 7 exBatch5).1 = 3 := by
  have h := claim_C4_persists_validated_new exStore4 7 exBatch5 (by decide) (by decide)
  refine ⟨?_, ?_, ?_⟩
  · rw [h.1]
    decide
  · rw [h.1]
    decide
  · rw [h.2]
    decide

/-- Urls present in the table stay present through the batched-check
loop: the loop only ever appends rows. -/
lemma saveLoop_mono (ex : String → Bool) (sid : Nat) :
    ∀ (data : List ArticleData) (count : Nat) (st : List Article) (u : String),
    u ∈ st.map (fun a => a.source_url) →
    u ∈ ((saveLoop ex sid data count st).2).map (fun a => a.source_url)
  | [], _, st, u, h => by simpa [saveLoop] using h
  | ad :: rest, count, st, u, h => by
    cases hex : ex ad.source_url with
    | true =>
      rw [saveLoop_cons_skip ex sid ad rest count st hex]
      exact saveLoop_mono ex sid rest count st u h
    | false =>
      cases hv : toArticleCreate sid ad with
      | error e =>
        cases e
        rw [saveLoop_cons_invalid ex sid ad rest count st hex hv]
        exact saveLoop_mono ex sid rest count st u h
      | ok ac =>
        cases hc : create_article st ac with
        | ok st2 =>
          rw [saveLoop_cons_ok ex sid ad rest count st ac st2 hex hv hc]
          apply saveLoop_mono
          rw [create_article_ok_super hc, List.map_append]
          exact List.mem_append_left _ h
        | error e =>
          cases e
          rw [saveLoop_cons_err ex sid ad rest count st ac hex hv hc]
          exact saveLoop_mono ex sid rest count st u h

/-- After one run of the batched-check loop, every candidate is covered
by the final table or was invalid: either its url was already stored,
or its truncation to 500 code points was inserted (or had already been
inserted when its insert failed on the constraint), or its summary is
empty and it was skipped by validation. -/
lemma saveLoop_covers (sid : Nat) (store : List Article) :
    ∀ (data : List ArticleData) (count : Nat) (st : List Article),
    (∀ u, store.any (fun a => a.source_url == u) = true →
      u ∈ st.map (fun a => a.source_url)) →
    ∀ ad ∈ data,
      ad.source_url ∈ ((saveLoop (fun u => store.any (fun a => a.source_url == u))
          sid data count st).2).map (fun a => a.source_url)
      ∨ pySlice ad.source_url 500 ∈ ((saveLoop (fun u => store.any
          (fun a => a.source_url == u)) sid data count st).2).map (fun a => a.source_url)
      ∨ ad.summary = ""
  | ad :: rest, count, st, hstore, x, hx => by
    rcases List.mem_cons.mp hx with hxad | hxrest
    · subst hxad
      cases hex : store.any (fun a => a.source_url == x.source_url) with
      | true =>
        rw [saveLoop_cons_skip (fun u => store.any (fun a => a.source_url == u))
              sid x rest count st hex]
        exact Or.inl (saveLoop_mono _ sid rest count st _ (hstore _ hex))
      | false =>
        cases hv : toArticleCreate sid x with
        | error e =>
          cases e
          rw [saveLoop_cons_invalid (fun u => store.any (fun a => a.source_url == u))
                sid x rest count st hex hv]
          exact Or.inr (Or.inr (toCreate_error_summary hv))
        | ok ac =>
          have hac := toCreate_ok_payload hv
          subst hac
          cases hc : create_article st (articleCreatePayload sid x) with
          | ok st2 =>
            rw [saveLoop_cons_ok (fun u => store.any (fun a => a.source_url == u))
                  sid x rest count st _ st2 hex hv hc]
            refine Or.inr (Or.inl (saveLoop_mono _ sid rest (count + 1) st2 _ ?_))
            rw [create_article_ok_super hc, List.map_append]
            refine List.mem_append_right _ ?_
            rw [List.map_cons, List.map_nil, insertedArticle_url, payload_url]
            exact List.mem_singleton.mpr rfl
          | error e =>
            cases e
            rw [saveLoop_cons_err (fun u => store.any (fun a => a.source_url == u))
                  sid x rest count st _ hex hv hc]
            have hmem : pySlice x.source_url 500 ∈ st.map (fun a => a.source_url) := by
              have hany := create_article_err hc
              rw [payload_url] at hany
              exact any_url_iff.mp hany
            exact Or.inr (Or.inl (saveLoop_mono _ sid rest count st _ hmem))
    · cases hex : store.any (fun a => a.source_url == ad.source_url) with
      | true =>
        rw [saveLoop_cons_skip (fun u => store.any (fun a => a.source_url == u))
              sid ad rest count st hex]
        exact saveLoop_covers sid store rest count st hstore x hxrest
      | false =>
        cases hv : toArticleCreate sid ad with
        | error e =>
          cases e
          rw [saveLoop_cons_invalid (fun u => store.any (fun a => a.source_url == u))
                sid ad rest count st hex hv]
          exact saveLoop_covers sid store rest count st hstore x hxrest
        | ok ac =>
          cases hc : create_article st ac with
          | ok st2 =>
            rw [saveLoop_cons_ok (fun u => store.any (fun a => a.source_url == u))
                  sid ad rest count st ac st2 hex hv hc]
            refine saveLoop_covers sid store rest (count + 1) st2 ?_ x hxrest
            intro u hu
            rw [create_article_ok_super hc, List.map_append]
            exact List.mem_append_left _ (hstore u hu)
          | error e =>
            cases e
            rw [saveLoop_cons_err (fun u => store.any (fun a => a.source_url == u))
                  sid ad rest count st ac hex hv hc]
            exact saveLoop_covers sid store rest count st hstore x hxrest

/-- When every candidate url (or its truncation) is already in the
table, or the candidate is invalid, a run of the batched-check loop
changes nothing and counts zero additional saves. -/
lemma saveLoop_stall (sid : Nat) (base : List Article) :
    ∀ (data : List ArticleData) (count : Nat),
    (∀ ad ∈ data, ad.source_url ∈ base.map (fun a => a.source_url)
        ∨ pySlice ad.source_url 500 ∈ base.map (fun a => a.source_url)
        ∨ ad.summary = "") →
    saveLoop (fun u => base.any (fun a => a.source_url == u)) sid data count base
      = (count, base)
  | [], count, _ => by simp [saveLoop]
  | ad :: rest, count, h => by
    have hrest : ∀ x ∈ rest, x.source_url ∈ base.map (fun a => a.source_url)
        ∨ pySlice x.source_url 500 ∈ base.map (fun a => a.source_url)
        ∨ x.summary = "" :=
      fun x hx => h x (List.mem_cons_of_mem ad hx)
    cases hex : base.any (fun a => a.source_url == ad.source_url) with
    | true =>
      rw [saveLoop_cons_skip (fun u => base.any (fun a => a.source_url == u))
            sid ad rest count base hex]
      exact saveLoop_stall sid base rest count hrest
    | false =>
      by_cases hs : ad.summary = ""
      · rw [saveLoop_cons_invalid (fun u => base.any (fun a => a.source_url == u))
              sid ad rest count base hex (toCreate_err_of hs)]
        exact saveLoop_stall sid base rest count hrest
      · have htr : pySlice ad.source_url 500 ∈ base.map (fun a => a.source_url) := by
          rcases h ad (List.mem_cons_self ad rest) with hin | hin | hin
          · exact absurd (any_url_iff.mpr hin) (by rw [hex]; exact Bool.false_ne_true)
          · exact hin
          · exact absurd hin hs
        have hcreate : create_article base (articleCreatePayload sid ad) = .error () := by
          unfold create_article
          rw [payload_url, if_pos (any_url_iff.mpr htr)]
        rw [saveLoop_cons_err (fun u => base.any (fun a => a.source_url == u))
              sid ad rest count base _ hex (toCreate_ok_of hs) hcreate]
        exact saveLoop_stall sid base rest count hrest

/-- Urls present in the table stay present through the per-item-check
loop. -/
lemma saveLoopV2_mono (sid : Nat) :
    ∀ (data : List ArticleData) (count : Nat) (st : List Article) (u : String),
    u ∈ st.map (fun a => a.source_url) →
    u ∈ ((saveLoopV2 sid data count st).2).map (fun a => a.source_url)
  | [], _, st, u, h => by simpa [saveLoopV2] using h
  | ad :: rest, count, st, u, h => by
    cases hex : st.any (fun a => a.source_url == ad.source_url) with
    | true =>
      rw [saveLoopV2_cons_skip sid ad rest count st hex]
      exact saveLoopV2_mono sid rest count st u h
    | false =>
      cases hv : toArticleCreateV2 sid ad with
      | error e =>
        cases e
        rw [saveLoopV2_cons_invalid sid ad rest count st hex hv]
        exact saveLoopV2_mono sid rest count st u h
      | ok ac =>
        cases hc : create_article st ac with
        | ok st2 =>
          rw [saveLoopV2_cons_ok sid ad rest count st ac st2 hex hv hc]
          apply saveLoopV2_mono
          rw [create_article_ok_super hc, List.map_append]
          exact List.mem_append_left _ h
        | error e =>
          cases e
          rw [saveLoopV2_cons_err sid ad rest count st ac hex hv hc]
          exact saveLoopV2_mono sid rest count st u h

/-- After one run of the per-item-check loop every candidate url is in
the final table, or the candidate was invalid (empty summary). -/
lemma saveLoopV2_covers (sid : Nat) :
    ∀ (data : List ArticleData) (count : Nat) (st : List Article),
    ∀ ad ∈ data,
      ad.source_url ∈ ((saveLoopV2 sid data count st).2).map (fun a => a.source_url)
      ∨ ad.summary = ""
  | ad :: rest, count, st, x, hx => by
    rcases List.mem_cons.mp hx with hxad | hxrest
    · subst hxad
      cases hex : st.any (fun a => a.source_url == x.source_url) with
      | true =>
        rw [saveLoopV2_cons_skip sid x rest count st hex]
        exact Or.inl (saveLoopV2_mono sid rest count st _ (any_url_iff.mp hex))
      | false =>
        cases hv : toArticleCreateV2 sid x with
        | error e =>
          cases e
          rw [saveLoopV2_cons_invalid sid x rest count st hex hv]
          exact Or.inr (toCreateV2_error_summary hv)
        | ok ac =>
          have hac := toCreateV2_ok_payload hv
          subst hac
          have hcreate : create_article st (articleCreatePayloadV2 sid x)
              = .ok (st ++ [insertedArticle (articleCreatePayloadV2 sid x)]) := by
            unfold create_article
            rw [payloadV2_url, if_neg]
            intro hcc
            rw [hex] at hcc
            exact Bool.false_ne_true hcc
          rw [saveLoopV2_cons_ok sid x rest count st _ _ hex hv hcreate]
          refine Or.inl (saveLoopV2_mono sid rest (count + 1) _ _ ?_)
          rw [List.map_append]
          refine List.mem_append_right _ ?_
          rw [List.map_cons, List.map_nil, insertedArticle_url, payloadV2_url]
          exact List.mem_singleton.mpr rfl
    · cases hex : st.any (fun a => a.source_url == ad.source_url) with
      | true =>
        rw [saveLoopV2_cons_skip sid ad rest count st hex]
        exact saveLoopV2_covers sid rest count st x hxrest
      | false =>
        cases hv : toArticleCreateV2 sid ad with
        | error e =>
          cases e
          rw [saveLoopV2_cons_invalid sid ad rest count st hex hv]
          exact saveLoopV2_covers sid rest count st x hxrest
        | ok ac =>
          cases hc : create_article st ac with
          | ok st2 =>
            rw [saveLoopV2_cons_ok sid ad rest count st ac st2 hex hv hc]
            exact saveLoopV2_covers sid rest (count + 1) st2 x hxrest
          | error e =>
            cases e
            rw [saveLoopV2_cons_err sid ad rest count st ac hex hv hc]
            exact saveLoopV2_covers sid rest count st x hxrest

/-- When every candidate url is already in the table or the candidate
is invalid, a run of the per-item-check loop changes nothing. -/
lemma saveLoopV2_stall (sid : Nat) (base : List Article) :
    ∀ (data : List ArticleData) (count : Nat),
    (∀ ad ∈ data, ad.source_url ∈ base.map (fun a => a.source_url)
        ∨ ad.summary = "") →
    saveLoopV2 sid data count base = (count, base)
  | [], count, _ => by simp [saveLoopV2]
  | ad :: rest, count, h => by
    have hrest : ∀ x ∈ rest, x.source_url ∈ base.map (fun a => a.source_url)
        ∨ x.summary = "" :=
      fun x hx => h x (List.mem_cons_of_mem ad hx)
    cases hex : base.any (fun a => a.source_url == ad.source_url) with
    | true =>
      rw [saveLoopV2_cons_skip sid ad rest count base hex]
      exact saveLoopV2_stall sid base rest count hrest
    | false =>
      have hs : ad.summary = "" := by
        rcases h ad (List.mem_cons_self ad rest) with hin | hin
        · exact absurd (any_url_iff.mpr hin) (by rw [hex]; exact Bool.false_ne_true)
        · exact hin
      rw [saveLoopV2_cons_invalid sid ad rest count base hex (toCreateV2_err_of hs)]
      exact saveLoopV2_stall sid base rest count hrest

/-- C5 (confirmed): running ingest a second time on the unchanged
candidate batch (the parse of an unchanged feed) saves 0 articles and
leaves the store exactly as the first run left it, in both variants.
The second run skips every candidate: its url is either found by the
existence check, or it fails the same deterministic ArticleCreate
validation as in the first run, or its insert fails on the uniqueness
constraint — and every path counts nothing. -/
theorem claim_C5_ingest_idempotent (store : List Article) (sid : Nat)
    (data : List ArticleData) :
    parse_and_save_articles (parse_and_save_articles store sid data).2 sid data
      = (0, (parse_and_save_articles store sid data).2)
    ∧ parse_and_save_articles_v2 (parse_and_save_articles_v2 store sid data).2 sid data
      = (0, (parse_and_save_articles_v2 store sid data).2) := by
  constructor
  · by_cases hd : data.isEmpty = true
    · have hnil : data = [] := List.isEmpty_iff.mp hd
      subst hnil
      simp [parse_and_save_articles]
    · have hrun1 : parse_and_save_articles store sid data
          = saveLoop (fun u => store.any (fun a => a.source_url == u)) sid data 0 store := by
        unfold parse_and_save_articles
        rw [if_neg hd]
      have hcov := saveLoop_covers sid store data 0 store
        (fun u hu => any_url_iff.mp hu)
      rw [hrun1]
      unfold parse_and_save_articles
      rw [if_neg hd]
      exact saveLoop_stall sid _ data 0 hcov
  · have hrun1 : parse_and_save_articles_v2 store sid data
        = saveLoopV2 sid data 0 store := rfl
    have hcov := saveLoopV2_covers sid data 0 store
    rw [hrun1]
    unfold parse_and_save_articles_v2
    exact saveLoopV2_stall sid _ data 0 hcov

/-- The batched-check loop saves at most one article per candidate. -/
lemma saveLoop_count_le (ex : String → Bool) (sid : Nat) :
    ∀ (data : List ArticleData) (count : Nat) (st : List Article),
    (saveLoop ex sid data count st).1 ≤ count + data.length
  | [], count, st => by simp [saveLoop]
  | ad :: rest, count, st => by
    cases hex : ex ad.source_url with
    | true =>
      rw [saveLoop_cons_skip ex sid ad rest count st hex]
      have := saveLoop_count_le ex sid rest count st
      rw [List.length_cons]
      omega
    | false =>
      cases hv : toArticleCreate sid ad with
      | error e =>
        cases e
        rw [saveLoop_cons_invalid ex sid ad rest count st hex hv]
        have := saveLoop_count_le ex sid rest count st
        rw [List.length_cons]
        omega
      | ok ac =>
        cases hc : create_article st ac with
        | ok st2 =>
          rw [saveLoop_cons_ok ex sid ad rest count st ac st2 hex hv hc]
          have := saveLoop_count_le ex sid rest (count + 1) st2
          rw [List.length_cons]
          omega
        | error e =>
          cases e
          rw [saveLoop_cons_err ex sid ad rest count st ac hex hv hc]
          have := saveLoop_count_le ex sid rest count st
          rw [List.length_cons]
          omega

/-- The per-item-check loop saves at most one article per candidate. -/
lemma saveLoopV2_count_le (sid : Nat) :
    ∀ (data : List ArticleData) (count : Nat) (st : List Article),
    (saveLoopV2 sid data count st).1 ≤ count + data.length
  | [], count, st => by simp [saveLoopV2]
  | ad :: rest, count, st => by
    cases hex : st.any (fun a => a.source_url == ad.source_url) with
    | true =>
      rw [saveLoopV2_cons_skip sid ad rest count st hex]
      have := saveLoopV2_count_le sid rest count st
      rw [List.length_cons]
      omega
    | false =>
      cases hv : toArticleCreateV2 sid ad with
      | error e =>
        cases e
        rw [saveLoopV2_cons_invalid sid ad rest count st hex hv]
        have := saveLoopV2_count_le sid rest count st
        rw [List.length_cons]
        omega
      | ok ac =>
        cases hc : create_article st ac with
        | ok st2 =>
          rw [saveLoopV2_cons_ok sid ad rest count st ac st2 hex hv hc]
          have := saveLoopV2_count_le sid rest (count + 1) st2
          rw [List.length_cons]
          omega
        | error e =>
          cases e
          rw [saveLoopV2_cons_err sid ad rest count st ac hex hv hc]
          have := saveLoopV2_count_le sid rest count st
          rw [List.length_cons]
          omega

/-- C6 (confirmed): a per-item failure is caught and the loop continues.
By construction the translated loops are total functions — both the
ArticleCreate validation and create_article return Except values whose
error branches the loops consume, so no per-item error escapes ingest.
The returned count never exceeds the candidate count, and on the
concrete batch [a, a, e, b] against an empty store the second insert of
url a fails on the uniqueness constraint and the empty-summary item e
fails validation, while b, coming after both failures, is still
persisted: ingest returns 2 of 4 candidates and the store holds exactly
the rows for a and b. -/
theorem claim_C6_partial_failure_tolerated :
    (∀ (store : List Article) (sid : Nat) (data : List ArticleData),
      (parse_and_save_articles store sid data).1 ≤ data.length)
    ∧ (∀ (store : List Article) (sid : Nat) (data : List ArticleData),
      (parse_and_save_articles_v2 store sid data).1 ≤ data.length)
    ∧ parse_and_save_articles [] 1 exBatchDup
        = (2, [insertedArticle (articleCreatePayload 1 (mkItemS "http://a" "s")),
               insertedArticle (articleCreatePayload 1 (mkItemS "http://b" "s"))])
    ∧ 2 < exBatchDup.length := by
  refine ⟨?_, ?_, by decide, by decide⟩
  · intro store sid data
    by_cases hd : data.isEmpty = true
    · have hnil : data = [] := List.isEmpty_iff.mp hd
      subst hnil
      simp [parse_and_save_articles]
    · unfold parse_and_save_articles
      rw [if_neg hd]
      have := saveLoop_count_le (fun u => store.any (fun a => a.source_url == u))
        sid data 0 store
      simpa using this
  · intro store sid data
    unfold parse_and_save_articles_v2
    have := saveLoopV2_count_le sid data 0 store
    simpa using this

end NewsHub

